import Mathlib

/-!
Shallow embedding of the pyth-cosmwasm contract core (src/contract.rs,
src/governance.rs, src/helpers.rs, src/msg.rs), together with proofs of
the specification's claims about it.

Bytes are modelled as `Nat` (with explicit `% 256` / `% 65536` reasoning
where machine-integer width matters); byte strings as `List Nat`;
fallible Rust functions as `Except`/`Option`.
-/

namespace PythCosmwasm

/-- A Pyth data source: an (emitter identity, chain id) pair
(`PythDataSource` in state.rs, reconstructed from its use in
contract.rs / governance.rs / helpers.rs: `emitter : Binary`,
`chain_id : u16`). -/
structure PythDataSource where
  emitter : List Nat
  chain_id : Nat
deriving DecidableEq, Repr

/-- The contract configuration record (`ConfigInfo` in state.rs,
reconstructed from its construction in `instantiate`, contract.rs
lines 31-38). The wormhole contract address plays no role in the
claims and is modelled as a string. `data_sources` is a `HashSet` in
Rust; membership is what the code uses, so a list with its membership
predicate models it. -/
structure ConfigInfo where
  wormhole_contract : String
  data_sources : List PythDataSource
  chain_id : Nat
  governance_source : PythDataSource
  governance_source_index : Nat
  governance_sequence_number : Nat
deriving DecidableEq, Repr

/-- A verified wormhole envelope (`ParsedVAA` from the external
`cw_mini_wormhole` crate): the fields the contract reads. The external
authenticity oracle (`parse_and_verify_vaa`) is out of scope per the
spec; governance functions take the already-verified envelope. -/
structure ParsedVAA where
  emitter_address : List Nat
  emitter_chain : Nat
  sequence : Nat
  payload : List Nat
deriving DecidableEq, Repr

/-- The contract error kinds used by the governance pipeline
(`ContractError` in error.rs, reconstructed from the variants
constructed in contract.rs and helpers.rs). -/
inductive ContractError where
  | InvalidUpdateEmitter
  | OldGovernanceMessage
  | InvalidGovernancePayload
deriving DecidableEq, Repr

/-! ### Governance wire codec (src/governance.rs) -/

/-- `b"PTGM"` (governance.rs line 10). -/
def pythGovernanceMagic : List Nat := [80, 84, 71, 77]

/-- `GovernanceModule` (governance.rs lines 15-20). -/
inductive GovernanceModule where
  | Executor
  | Target
deriving DecidableEq, Repr

/-- `GovernanceModule::from_u8` (governance.rs lines 23-29); the error
case is `none`. -/
def GovernanceModule.from_u8 (x : Nat) : Option GovernanceModule :=
  match x with
  | 0 => some .Executor
  | 1 => some .Target
  | _ => none

/-- `GovernanceModule::to_u8` (governance.rs lines 31-36). -/
def GovernanceModule.to_u8 : GovernanceModule → Nat
  | .Executor => 0
  | .Target => 1

/-- `GovernanceAction` (governance.rs lines 45-48): one variant, wire
tag 2. -/
inductive GovernanceAction where
  | SetDataSources (data_sources : List PythDataSource)
deriving DecidableEq, Repr

/-- `GovernanceInstruction` (governance.rs lines 51-55). -/
structure GovernanceInstruction where
  module : GovernanceModule
  action : GovernanceAction
  target_chain_id : Nat
deriving DecidableEq, Repr

/-- `bytes.read_u8()` on a byte stream: one byte or failure. -/
def readByte (bs : List Nat) : Option (Nat × List Nat) :=
  match bs with
  | [] => none
  | b :: rest => some (b, rest)

/-- `bytes.read_u16::<BigEndian>()`: two bytes, big-endian. -/
def readU16BE (bs : List Nat) : Option (Nat × List Nat) :=
  match bs with
  | b1 :: b2 :: rest => some (b1 * 256 + b2, rest)
  | _ => none

/-- `bytes.read_exact` into an `n`-byte buffer: exactly `n` bytes or
failure. -/
def readExact (n : Nat) (bs : List Nat) : Option (List Nat × List Nat) :=
  if n ≤ bs.length then some (bs.take n, bs.drop n) else none

/-- The loop of governance.rs lines 79-88: read `n` records of
`chain_id(2 bytes BE) | emitter(32 bytes)`. -/
def readDataSources : Nat → List Nat → Option (List PythDataSource × List Nat)
  | 0, bs => some ([], bs)
  | n + 1, bs =>
    match readU16BE bs with
    | none => none
    | some (cid, bs1) =>
      match readExact 32 bs1 with
      | none => none
      | some (em, bs2) =>
        match readDataSources n bs2 with
        | none => none
        | some (ds, bs3) => some (⟨em, cid⟩ :: ds, bs3)

/-- The distinct failure causes of `GovernanceInstruction::deserialize`
(each an `ErrBox` string in Rust; the distinct messages are modelled as
distinct kinds). `readError` stands for an I/O short-read failure of
`read_exact` / `read_u8` / `read_u16`. -/
inductive DeserError where
  | readError
  | magicMismatch
  | unknownModule
  | unknownAction
  | trailingBytes
deriving DecidableEq, Repr

/-- The action branch of `deserialize` (governance.rs lines 75-94):
for tag 2 the body (`count(1) | count x record(34)`) is read, a short
read failing immediately (`none` here); for any other tag nothing is
read and the unknown-action error is deferred (the inner `Except`), to
be raised only after the end-of-buffer check, as in the source. -/
def readAction (actionType : Nat) (bs : List Nat) :
    Option (Except DeserError GovernanceAction × List Nat) :=
  if actionType = 2 then
    match readByte bs with
    | none => none
    | some (count, bs1) =>
      match readDataSources count bs1 with
      | none => none
      | some (ds, bs2) => some (.ok (.SetDataSources ds), bs2)
  else some (.error .unknownAction, bs)

/-- `GovernanceInstruction::deserialize` (governance.rs lines 58-111).
Order of operations follows the source exactly: magic (4 bytes, compared
to `PTGM`), module byte, action tag byte, target chain id (u16 BE), the
action body (`readAction`, errors for an unrecognized tag deferred),
then the end-of-buffer check of lines 99-104, and only after it the
deferred action error of line 108 (`action?`). -/
def GovernanceInstruction.deserialize (bs : List Nat) :
    Except DeserError GovernanceInstruction :=
  match readExact 4 bs with
  | none => .error .readError
  | some (magic, bs1) =>
    if magic ≠ pythGovernanceMagic then .error .magicMismatch
    else
      match readByte bs1 with
      | none => .error .readError
      | some (moduleNum, bs2) =>
        match GovernanceModule.from_u8 moduleNum with
        | none => .error .unknownModule
        | some m =>
          match readByte bs2 with
          | none => .error .readError
          | some (actionType, bs3) =>
            match readU16BE bs3 with
            | none => .error .readError
            | some (targetChainId, bs4) =>
              match readAction actionType bs4 with
              | none => .error .readError
              | some (action, rest) =>
                if rest ≠ [] then .error .trailingBytes
                else
                  match action with
                  | .error e => .error e
                  | .ok a => .ok ⟨m, a, targetChainId⟩

/-- The failure causes of `GovernanceInstruction::serialize`:
`u8::try_from(data_sources.len())` failing (more than 255 sources,
governance.rs line 123) and the 32-byte emitter check (lines 130-132). -/
inductive SerError where
  | tooManySources
  | invalidEmitterLength
deriving DecidableEq, Repr

/-- `write_u16::<BigEndian>` of a u16 value: the two bytes, big-endian
(the `% 256` on the high byte is the u16 truncation, a no-op for
`x < 65536`). -/
def u16be (x : Nat) : List Nat := [x / 256 % 256, x % 256]

/-- The per-source body of `serialize`s loop (governance.rs lines
124-135): `chain_id(2) | emitter(32)` per source, failing on an emitter
whose length is not 32. -/
def serializeDataSources : List PythDataSource → Except SerError (List Nat)
  | [] => .ok []
  | d :: rest =>
    if d.emitter.length ≠ 32 then .error .invalidEmitterLength
    else
      match serializeDataSources rest with
      | .error e => .error e
      | .ok tail => .ok (u16be d.chain_id ++ d.emitter ++ tail)

/-- `GovernanceInstruction::serialize` (governance.rs lines 113-140):
magic, module byte, action tag 2, target chain id, source count as one
byte (failing for more than 255 sources, before any emitter is
examined), then the sources. -/
def GovernanceInstruction.serialize (gi : GovernanceInstruction) :
    Except SerError (List Nat) :=
  match gi.action with
  | .SetDataSources ds =>
    if 255 < ds.length then .error .tooManySources
    else
      match serializeDataSources ds with
      | .error e => .error e
      | .ok body =>
        .ok (pythGovernanceMagic ++ [gi.module.to_u8] ++ [2] ++
          u16be gi.target_chain_id ++ [ds.length] ++ body)

/-! ### Governance pipeline (src/contract.rs, `execute_governance_instruction`) -/

/-- `verify_vaa_from_governance_source` (helpers.rs lines 41-55):
the envelope's (emitter, chain) must equal the single configured
governance source exactly. -/
def verify_vaa_from_governance_source (state : ConfigInfo) (vaa : ParsedVAA) :
    Except ContractError Unit :=
  if state.governance_source ≠ ⟨vaa.emitter_address, vaa.emitter_chain⟩ then
    .error .InvalidUpdateEmitter
  else .ok ()

/-- `execute_governance_instruction` (contract.rs lines 63-114), taking
the already-verified envelope (the `parse_and_verify_vaa` round-trip to
the external wormhole contract is the out-of-scope authenticity oracle).
On success the returned configuration is the record passed to
`CONFIG.save` at line 111; an error means `save` is never reached.
Order of checks follows the source: governance source, sequence number
(staging the new sequence number into the updated config), payload
decode, target chain id, module, then the action. -/
def execute_governance_instruction (config : ConfigInfo) (vaa : ParsedVAA) :
    Except ContractError ConfigInfo :=
  match verify_vaa_from_governance_source config vaa with
  | .error e => .error e
  | .ok _ =>
    if vaa.sequence ≤ config.governance_sequence_number then
      .error .OldGovernanceMessage
    else
      match GovernanceInstruction.deserialize vaa.payload with
      | .error _ => .error .InvalidGovernancePayload
      | .ok instruction =>
        if instruction.target_chain_id ≠ config.chain_id ∧
            instruction.target_chain_id ≠ 0 then
          .error .InvalidGovernancePayload
        else if instruction.module ≠ GovernanceModule.Target then
          .error .InvalidGovernancePayload
        else
          match instruction.action with
          | .SetDataSources data_sources =>
            .ok { config with
                  governance_sequence_number := vaa.sequence,
                  data_sources := data_sources }

/-- The configuration in storage after a governance call: the saved
record on success, the untouched old record on any error (the single
`CONFIG.save` at contract.rs line 111 is only reached on success). -/
def storedAfter (config : ConfigInfo) (vaa : ParsedVAA) : ConfigInfo :=
  match execute_governance_instruction config vaa with
  | .error _ => config
  | .ok c => c

/-! ### Price feeds and queries (src/contract.rs, src/helpers.rs) -/

/-- `pyth_sdk::Price`: mantissa, confidence, exponent, publish time.
`Default` in Rust is all-zero. -/
structure Price where
  price : Int
  conf : Nat
  expo : Int
  publish_time : Int
deriving DecidableEq, Repr

/-- `Price::default()`: every field zero. -/
def Price.default : Price := ⟨0, 0, 0, 0⟩

/-- A price identifier (32 bytes in `pyth_sdk`); only equality is used
by the contract. -/
abbrev PriceIdentifier := List Nat

/-- `pyth_sdk::PriceFeed`: identifier, current price, EMA price
(`get_price_unchecked` returns the `price` field,
`get_ema_price_unchecked` the `ema_price` field). -/
structure PriceFeed where
  id : PriceIdentifier
  price : Price
  ema_price : Price
deriving DecidableEq, Repr

/-- The inner loop of `query_parse_price_feed_updates` (contract.rs
lines 169-181): scan one blob's decoded feeds in order and take the
first whose publish time lies in the inclusive window and whose id
matches (out-of-window feeds are skipped by the `continue`). -/
def findFeed (id : PriceIdentifier) (minT maxT : Int) :
    List PriceFeed → Option PriceFeed
  | [] => none
  | f :: rest =>
    if f.price.publish_time < minT ∨ maxT < f.price.publish_time then
      findFeed id minT maxT rest
    else if id = f.id then some f
    else findFeed id minT maxT rest

/-- One pass of the middle loop of `query_parse_price_feed_updates`
(contract.rs lines 164-182) over one blob's feeds: already-satisfied
result slots are skipped, unsatisfied slots get the first in-window
match from this blob, if any. -/
def updateResults (minT maxT : Int) (feeds : List PriceFeed)
    (results : List (PriceIdentifier × Option PriceFeed)) :
    List (PriceIdentifier × Option PriceFeed) :=
  results.map fun r =>
    match r.2 with
    | some _ => r
    | none => (r.1, findFeed r.1 minT maxT feeds)

/-- `query_parse_price_feed_updates` (contract.rs lines 149-197), taking
each update blob as its decoded feed list (`parse_update`, which rounds
through the external authenticity oracle, is the out-of-scope decode
step; the claims quantify over its results). The running `found_feeds`
counter equals the number of satisfied slots, since a slot is filled at
most once (the `is_some` guard) and counted exactly when filled; it is
computed here at the end. On success the slots are unwrapped in request
order (`Option.getD` models the `unwrap` of line 191, which the length
check of line 185 guards). -/
def query_parse_price_feed_updates (updates : List (List PriceFeed))
    (price_feeds : List PriceIdentifier) (minT maxT : Int) :
    Except String (List PriceFeed) :=
  let init : List (PriceIdentifier × Option PriceFeed) :=
    price_feeds.map fun id => (id, none)
  let results := updates.foldl (fun rs feeds => updateResults minT maxT feeds rs) init
  let found_feeds := (results.filter fun r => r.2.isSome).length
  if found_feeds ≠ price_feeds.length then .error "Invalid update data"
  else .ok (results.map fun r => (r.2.getD ⟨[], Price.default, Price.default⟩))

/-- `query_parse_single_price_feed_update` (contract.rs lines 199-224),
taking the blob as its decoded feed list. The Rust loop exits on its
first iteration either way: `break` when the head feed matches the id
and lies strictly inside the window, `Err` otherwise; with no feeds the
loop body never runs and the default (all-zero) price is returned. -/
def query_parse_single_price_feed_update (feeds : List PriceFeed)
    (price_feed : PriceIdentifier) (minT maxT : Int) : Except String Price :=
  match feeds with
  | [] => .ok Price.default
  | feed :: _ =>
    if feed.id = price_feed ∧ minT < feed.price.publish_time ∧
        feed.price.publish_time < maxT then
      .ok feed.price
    else .error "Price not found within range"

/-! ### Legacy batch attestation (src/helpers.rs) -/

/-- `pyth_wormhole_attester_sdk::PriceStatus`. The contract only
distinguishes `Trading` from everything else. -/
inductive PriceStatus where
  | Unknown
  | Trading
  | Halted
  | Auction
deriving DecidableEq, Repr

/-- The fields of `pyth_wormhole_attester_sdk::PriceAttestation` that
`create_price_feed_from_price_attestation` reads. -/
structure PriceAttestation where
  price_id : PriceIdentifier
  price : Int
  conf : Nat
  expo : Int
  publish_time : Int
  prev_price : Int
  prev_conf : Nat
  prev_publish_time : Int
  ema_price : Int
  ema_conf : Nat
  status : PriceStatus
deriving DecidableEq, Repr

/-- `create_price_feed_from_price_attestation` (helpers.rs lines
164-197): a `Trading` record yields the live
price/conf/publish-time as the current price; any other status falls
back to the `prev_*` fields for the current price. In both cases the
EMA price/conf come from the live `ema_*` fields, with the same
publish time as the chosen current price. -/
def create_price_feed_from_price_attestation (pa : PriceAttestation) : PriceFeed :=
  match pa.status with
  | .Trading =>
    ⟨pa.price_id,
     ⟨pa.price, pa.conf, pa.expo, pa.publish_time⟩,
     ⟨pa.ema_price, pa.ema_conf, pa.expo, pa.publish_time⟩⟩
  | _ =>
    ⟨pa.price_id,
     ⟨pa.prev_price, pa.prev_conf, pa.expo, pa.prev_publish_time⟩,
     ⟨pa.ema_price, pa.ema_conf, pa.expo, pa.prev_publish_time⟩⟩

/-! ### Accumulator update loop (src/helpers.rs, `parse_accumulator`) -/

/-- A Merkle proof as handed to `MerkleRoot::check`; its structure is
owned by the external `pythnet_sdk` crate, so it is opaque bytes here. -/
abbrev MerkleProof := List Nat

/-- One `(message, proof)` pair of the accumulator blob
(`pythnet_sdk::wire::v1::MerklePriceUpdate`). -/
structure MerkleUpdate where
  message : List Nat
  proof : MerkleProof
deriving DecidableEq, Repr

/-- `pythnet_sdk::messages::PriceFeedMessage`: the fields the contract
reads. -/
structure PriceFeedMessage where
  feed_id : PriceIdentifier
  price : Int
  conf : Nat
  exponent : Int
  publish_time : Int
  ema_price : Int
  ema_conf : Nat
deriving DecidableEq, Repr

/-- `pythnet_sdk::messages::Message`: the contract accepts only the
price-feed variant; every other variant is collected in `Other`. -/
inductive AccMessage where
  | PriceFeedMessage (m : PriceFeedMessage)
  | Other
deriving DecidableEq, Repr

/-- The `PriceFeed::new(...)` of helpers.rs lines 118-132. -/
def feedOfMessage (m : PriceFeedMessage) : PriceFeed :=
  ⟨m.feed_id,
   ⟨m.price, m.conf, m.exponent, m.publish_time⟩,
   ⟨m.ema_price, m.ema_conf, m.exponent, m.publish_time⟩⟩

/-- The `for update in updates` loop of `parse_accumulator` (helpers.rs
lines 107-137), after the envelope has been verified and the Merkle
root extracted from its payload. `check` is `root.check update.proof`
(external `pythnet_sdk` Merkle verifier, root baked in) and
`decodeMessage` is `from_slice::<BigEndian, Message>` (external codec);
both are parameters because they live outside this repository. Per
update, first the proof, then the message decode, then the variant
check; the first failure aborts the whole loop with that failure. -/
def parse_accumulator_updates (check : MerkleProof → List Nat → Bool)
    (decodeMessage : List Nat → Option AccMessage) :
    List MerkleUpdate → Except String (List PriceFeed)
  | [] => .ok []
  | u :: rest =>
    if ¬ check u.proof u.message then .error "Invalid merkly proof"
    else
      match decodeMessage u.message with
      | none => .error "Invalid accumulator message"
      | some (.PriceFeedMessage m) =>
        match parse_accumulator_updates check decodeMessage rest with
        | .error e => .error e
        | .ok feeds => .ok (feedOfMessage m :: feeds)
      | some .Other => .error "Invalid accumulator message type"

/-! ### Governance pipeline lemmas -/

theorem exec_gov_bad_source (config : ConfigInfo) (vaa : ParsedVAA)
    (h : config.governance_source ≠ ⟨vaa.emitter_address, vaa.emitter_chain⟩) :
    execute_governance_instruction config vaa = .error .InvalidUpdateEmitter := by
  simp [execute_governance_instruction, verify_vaa_from_governance_source, h]

theorem exec_gov_stale (config : ConfigInfo) (vaa : ParsedVAA)
    (hsrc : config.governance_source = ⟨vaa.emitter_address, vaa.emitter_chain⟩)
    (hseq : vaa.sequence ≤ config.governance_sequence_number) :
    execute_governance_instruction config vaa = .error .OldGovernanceMessage := by
  simp [execute_governance_instruction, verify_vaa_from_governance_source, hsrc, hseq]

theorem exec_gov_decode_fail (config : ConfigInfo) (vaa : ParsedVAA)
    (hsrc : config.governance_source = ⟨vaa.emitter_address, vaa.emitter_chain⟩)
    (hseq : config.governance_sequence_number < vaa.sequence)
    (hdec : ∀ instr, GovernanceInstruction.deserialize vaa.payload ≠ .ok instr) :
    execute_governance_instruction config vaa = .error .InvalidGovernancePayload := by
  cases hd : GovernanceInstruction.deserialize vaa.payload with
  | error e =>
    simp [execute_governance_instruction, verify_vaa_from_governance_source, hsrc,
      Nat.not_le_of_lt hseq, hd]
  | ok instr => exact absurd hd (hdec instr)

theorem exec_gov_wrong_chain (config : ConfigInfo) (vaa : ParsedVAA)
    (instr : GovernanceInstruction)
    (hsrc : config.governance_source = ⟨vaa.emitter_address, vaa.emitter_chain⟩)
    (hseq : config.governance_sequence_number < vaa.sequence)
    (hdec : GovernanceInstruction.deserialize vaa.payload = .ok instr)
    (hchain : instr.target_chain_id ≠ config.chain_id ∧ instr.target_chain_id ≠ 0) :
    execute_governance_instruction config vaa = .error .InvalidGovernancePayload := by
  simp [execute_governance_instruction, verify_vaa_from_governance_source, hsrc,
    Nat.not_le_of_lt hseq, hdec, hchain]

theorem exec_gov_wrong_module (config : ConfigInfo) (vaa : ParsedVAA)
    (instr : GovernanceInstruction)
    (hsrc : config.governance_source = ⟨vaa.emitter_address, vaa.emitter_chain⟩)
    (hseq : config.governance_sequence_number < vaa.sequence)
    (hdec : GovernanceInstruction.deserialize vaa.payload = .ok instr)
    (hchain : instr.target_chain_id = config.chain_id ∨ instr.target_chain_id = 0)
    (hmod : instr.module ≠ .Target) :
    execute_governance_instruction config vaa = .error .InvalidGovernancePayload := by
  have hc : ¬(instr.target_chain_id ≠ config.chain_id ∧ instr.target_chain_id ≠ 0) := by
    rcases hchain with h | h <;> simp [h]
  simp [execute_governance_instruction, verify_vaa_from_governance_source, hsrc,
    Nat.not_le_of_lt hseq, hdec, hc, hmod]

theorem exec_gov_success (config : ConfigInfo) (vaa : ParsedVAA)
    (instr : GovernanceInstruction) (ds : List PythDataSource)
    (hsrc : config.governance_source = ⟨vaa.emitter_address, vaa.emitter_chain⟩)
    (hseq : config.governance_sequence_number < vaa.sequence)
    (hdec : GovernanceInstruction.deserialize vaa.payload = .ok instr)
    (hchain : instr.target_chain_id = config.chain_id ∨ instr.target_chain_id = 0)
    (hmod : instr.module = .Target)
    (hact : instr.action = .SetDataSources ds) :
    execute_governance_instruction config vaa =
      .ok { config with
              governance_sequence_number := vaa.sequence,
              data_sources := ds } := by
  have hc : ¬(instr.target_chain_id ≠ config.chain_id ∧ instr.target_chain_id ≠ 0) := by
    rcases hchain with h | h <;> simp [h]
  simp [execute_governance_instruction, verify_vaa_from_governance_source, hsrc,
    Nat.not_le_of_lt hseq, hdec, hc, hmod, hact]

theorem exec_gov_ok_inv (config : ConfigInfo) (vaa : ParsedVAA) (c : ConfigInfo)
    (h : execute_governance_instruction config vaa = .ok c) :
    config.governance_sequence_number < vaa.sequence ∧
    c.governance_sequence_number = vaa.sequence := by
  by_cases hsrc : config.governance_source = ⟨vaa.emitter_address, vaa.emitter_chain⟩
  case neg => rw [exec_gov_bad_source config vaa hsrc] at h; exact absurd h (by simp)
  by_cases hseq : vaa.sequence ≤ config.governance_sequence_number
  case pos => rw [exec_gov_stale config vaa hsrc hseq] at h; exact absurd h (by simp)
  have hseq2 : config.governance_sequence_number < vaa.sequence := Nat.lt_of_not_le hseq
  refine ⟨hseq2, ?_⟩
  cases hdec : GovernanceInstruction.deserialize vaa.payload with
  | error e =>
    rw [exec_gov_decode_fail config vaa hsrc hseq2 (by simp [hdec])] at h
    exact absurd h (by simp)
  | ok instr =>
    by_cases hchain : instr.target_chain_id ≠ config.chain_id ∧ instr.target_chain_id ≠ 0
    · rw [exec_gov_wrong_chain config vaa instr hsrc hseq2 hdec hchain] at h
      exact absurd h (by simp)
    · have hchain2 : instr.target_chain_id = config.chain_id ∨ instr.target_chain_id = 0 := by
        rcases not_and_or.mp hchain with h1 | h1
        · exact Or.inl (not_not.mp h1)
        · exact Or.inr (not_not.mp h1)
      by_cases hmod : instr.module = .Target
      · cases hact : instr.action with
        | SetDataSources ds =>
          rw [exec_gov_success config vaa instr ds hsrc hseq2 hdec hchain2 hmod hact] at h
          have := (Except.ok.injEq _ _).mp h
          rw [← this]
      · rw [exec_gov_wrong_module config vaa instr hsrc hseq2 hdec hchain2 hmod] at h
        exact absurd h (by simp)

theorem storedAfter_gsn_le (config : ConfigInfo) (vaa : ParsedVAA) :
    config.governance_sequence_number ≤
      (storedAfter config vaa).governance_sequence_number := by
  unfold storedAfter
  cases h : execute_governance_instruction config vaa with
  | error e => exact Nat.le_refl _
  | ok c =>
    obtain ⟨h1, h2⟩ := exec_gov_ok_inv config vaa c h
    rw [h2]
    exact Nat.le_of_lt h1

theorem foldl_storedAfter_gsn_le (vaas : List ParsedVAA) :
    ∀ config : ConfigInfo,
      config.governance_sequence_number ≤
        (vaas.foldl storedAfter config).governance_sequence_number := by
  induction vaas with
  | nil => intro config; exact Nat.le_refl _
  | cons v vs ih =>
    intro config
    rw [List.foldl_cons]
    exact Nat.le_trans (storedAfter_gsn_le config v) (ih (storedAfter config v))

/-! ### Claim theorems: governance pipeline -/

/-- C1: a governance call whose verified envelope carries a sequence
number at most the stored governance sequence number is rejected (with
`OldGovernanceMessage` whenever the source check passed) and leaves the
configuration unchanged; every successful call stores exactly the
envelope sequence number, strictly greater than the previous stored
value; hence the stored sequence number never decreases across any
sequence of calls. -/
theorem governance_sequence_replay_and_monotonicity (config : ConfigInfo)
    (vaa : ParsedVAA) :
    (vaa.sequence ≤ config.governance_sequence_number →
      (∃ e, execute_governance_instruction config vaa = .error e) ∧
      storedAfter config vaa = config)
    ∧ (config.governance_source = ⟨vaa.emitter_address, vaa.emitter_chain⟩ →
      vaa.sequence ≤ config.governance_sequence_number →
      execute_governance_instruction config vaa = .error .OldGovernanceMessage)
    ∧ (∀ c, execute_governance_instruction config vaa = .ok c →
      c.governance_sequence_number = vaa.sequence ∧
      config.governance_sequence_number < c.governance_sequence_number)
    ∧ (∀ vaas : List ParsedVAA,
      config.governance_sequence_number ≤
        (vaas.foldl storedAfter config).governance_sequence_number) := by
  refine ⟨?_, ?_, ?_, fun vaas => foldl_storedAfter_gsn_le vaas config⟩
  · intro hseq
    by_cases hsrc : config.governance_source = ⟨vaa.emitter_address, vaa.emitter_chain⟩
    · have he := exec_gov_stale config vaa hsrc hseq
      exact ⟨⟨_, he⟩, by unfold storedAfter; rw [he]⟩
    · have he := exec_gov_bad_source config vaa hsrc
      exact ⟨⟨_, he⟩, by unfold storedAfter; rw [he]⟩
  · intro hsrc hseq
    exact exec_gov_stale config vaa hsrc hseq
  · intro c hc
    obtain ⟨h1, h2⟩ := exec_gov_ok_inv config vaa c hc
    exact ⟨h2, by rw [h2]; exact h1⟩

/-- Witness for C1 at a concrete stale call: stored sequence number 5,
envelope sequence number 5. -/
theorem governance_sequence_replay_and_monotonicity_witness :
    execute_governance_instruction ⟨"wh", [], 3, ⟨[7], 1⟩, 0, 5⟩
        ⟨[7], 1, 5, []⟩ = .error .OldGovernanceMessage :=
  (governance_sequence_replay_and_monotonicity _ _).2.1 rfl (by decide)

/-- C7: once authenticity, authorization and the sequence check have
passed and the payload decodes, an instruction targeting chain id 0 is
accepted whatever the configured chain id (given it is addressed to the
Target module), while a non-zero target chain id differing from the
configured one is always rejected with no configuration change. -/
theorem governance_chain_targeting (config : ConfigInfo) (vaa : ParsedVAA)
    (instr : GovernanceInstruction)
    (hsrc : config.governance_source = ⟨vaa.emitter_address, vaa.emitter_chain⟩)
    (hseq : config.governance_sequence_number < vaa.sequence)
    (hdec : GovernanceInstruction.deserialize vaa.payload = .ok instr) :
    (instr.target_chain_id = 0 → instr.module = .Target →
      (execute_governance_instruction config vaa).isOk = true)
    ∧ (instr.target_chain_id ≠ 0 → instr.target_chain_id ≠ config.chain_id →
      execute_governance_instruction config vaa = .error .InvalidGovernancePayload ∧
      storedAfter config vaa = config) := by
  constructor
  · intro h0 hmod
    cases hact : instr.action with
    | SetDataSources ds =>
      rw [exec_gov_success config vaa instr ds hsrc hseq hdec (Or.inr h0) hmod hact]
      rfl
  · intro hnz hne
    have he := exec_gov_wrong_chain config vaa instr hsrc hseq hdec ⟨hne, hnz⟩
    exact ⟨he, by unfold storedAfter; rw [he]⟩

/-- Witness for C7: a wildcard (chain id 0) instruction succeeds on a
deployment configured for chain id 3. -/
theorem governance_chain_targeting_witness :
    (execute_governance_instruction ⟨"wh", [], 3, ⟨[7], 1⟩, 0, 0⟩
        ⟨[7], 1, 1, [80, 84, 71, 77, 1, 2, 0, 0, 0]⟩).isOk = true :=
  (governance_chain_targeting ⟨"wh", [], 3, ⟨[7], 1⟩, 0, 0⟩
    ⟨[7], 1, 1, [80, 84, 71, 77, 1, 2, 0, 0, 0]⟩ ⟨.Target, .SetDataSources [], 0⟩
    rfl (by decide) rfl).1 rfl rfl

/-- C9 counterexample: a payload decode failure, a wrong (non-zero,
non-matching) target chain id, and a wrong module tag all surface as the
one error kind `InvalidGovernancePayload` (contract.rs lines 86-99 use
the same variant for all three), so these causes are NOT distinct error
kinds. The configured chain id is 3; the three payloads are empty bytes,
a valid instruction targeting chain 5, and a valid instruction for the
Executor module targeting all chains. -/
theorem governance_error_kinds_cex :
    execute_governance_instruction ⟨"wh", [], 3, ⟨[7], 1⟩, 0, 0⟩
        ⟨[7], 1, 1, []⟩ = .error .InvalidGovernancePayload
    ∧ execute_governance_instruction ⟨"wh", [], 3, ⟨[7], 1⟩, 0, 0⟩
        ⟨[7], 1, 1, [80, 84, 71, 77, 1, 2, 0, 5, 0]⟩ = .error .InvalidGovernancePayload
    ∧ execute_governance_instruction ⟨"wh", [], 3, ⟨[7], 1⟩, 0, 0⟩
        ⟨[7], 1, 1, [80, 84, 71, 77, 0, 2, 0, 0, 0]⟩ = .error .InvalidGovernancePayload :=
  ⟨rfl, rfl, rfl⟩

/-- C9 amended: after source and sequence checks pass, payload decode
failure, wrong target chain id and wrong module all collapse to the
single error kind `InvalidGovernancePayload`; only the unauthorized
source (`InvalidUpdateEmitter`) and stale sequence
(`OldGovernanceMessage`) causes have their own distinct kinds. -/
theorem governance_error_kinds_amended (config : ConfigInfo) (vaa : ParsedVAA)
    (hsrc : config.governance_source = ⟨vaa.emitter_address, vaa.emitter_chain⟩)
    (hseq : config.governance_sequence_number < vaa.sequence) :
    ((∀ instr, GovernanceInstruction.deserialize vaa.payload ≠ .ok instr) →
      execute_governance_instruction config vaa = .error .InvalidGovernancePayload)
    ∧ (∀ instr, GovernanceInstruction.deserialize vaa.payload = .ok instr →
      instr.target_chain_id ≠ config.chain_id → instr.target_chain_id ≠ 0 →
      execute_governance_instruction config vaa = .error .InvalidGovernancePayload)
    ∧ (∀ instr, GovernanceInstruction.deserialize vaa.payload = .ok instr →
      (instr.target_chain_id = config.chain_id ∨ instr.target_chain_id = 0) →
      instr.module ≠ .Target →
      execute_governance_instruction config vaa = .error .InvalidGovernancePayload)
    ∧ (∀ cfg2 vaa2 : _, cfg2.governance_source ≠
        (⟨vaa2.emitter_address, vaa2.emitter_chain⟩ : PythDataSource) →
      execute_governance_instruction cfg2 vaa2 = .error .InvalidUpdateEmitter)
    ∧ (∀ cfg2 vaa2 : _, cfg2.governance_source =
        (⟨vaa2.emitter_address, vaa2.emitter_chain⟩ : PythDataSource) →
      vaa2.sequence ≤ cfg2.governance_sequence_number →
      execute_governance_instruction cfg2 vaa2 = .error .OldGovernanceMessage) :=
  ⟨fun hdec => exec_gov_decode_fail config vaa hsrc hseq hdec,
   fun instr hdec hne hnz =>
     exec_gov_wrong_chain config vaa instr hsrc hseq hdec ⟨hne, hnz⟩,
   fun instr hdec hchain hmod =>
     exec_gov_wrong_module config vaa instr hsrc hseq hdec hchain hmod,
   fun cfg2 vaa2 h => exec_gov_bad_source cfg2 vaa2 h,
   fun cfg2 vaa2 h1 h2 => exec_gov_stale cfg2 vaa2 h1 h2⟩

/-- Witness for the amended C9 at the concrete wrong-chain call. -/
theorem governance_error_kinds_amended_witness :
    execute_governance_instruction ⟨"wh", [], 3, ⟨[7], 1⟩, 0, 0⟩
        ⟨[7], 1, 1, [80, 84, 71, 77, 1, 2, 0, 5, 0]⟩ =
      .error .InvalidGovernancePayload :=
  (governance_error_kinds_amended ⟨"wh", [], 3, ⟨[7], 1⟩, 0, 0⟩
    ⟨[7], 1, 1, [80, 84, 71, 77, 1, 2, 0, 5, 0]⟩ rfl (by decide)).2.1
    ⟨.Target, .SetDataSources [], 5⟩ rfl (by decide) (by decide)

/-! ### Claim theorems: single-feed query and batch attestation -/

/-- C3: for a blob decoding to a non-empty feed list, the single-feed
query returns the first decoded feed's price iff that feed matches the
requested identifier and its publish time lies strictly inside the
window; otherwise it fails immediately, never inspecting later feeds
(the result does not depend on the tail of the feed list). -/
theorem single_feed_head_decides (f : PriceFeed) (rest : List PriceFeed)
    (id : PriceIdentifier) (minT maxT : Int) :
    (query_parse_single_price_feed_update (f :: rest) id minT maxT = .ok f.price ↔
      (f.id = id ∧ minT < f.price.publish_time ∧ f.price.publish_time < maxT))
    ∧ (¬(f.id = id ∧ minT < f.price.publish_time ∧ f.price.publish_time < maxT) →
      query_parse_single_price_feed_update (f :: rest) id minT maxT =
        .error "Price not found within range")
    ∧ (∀ rest2, query_parse_single_price_feed_update (f :: rest) id minT maxT =
        query_parse_single_price_feed_update (f :: rest2) id minT maxT) := by
  unfold query_parse_single_price_feed_update
  by_cases h : f.id = id ∧ minT < f.price.publish_time ∧ f.price.publish_time < maxT
  · simp [h]
  · simp [h]

/-- Witness for C3 at a concrete matching head feed. -/
theorem single_feed_head_decides_witness :
    query_parse_single_price_feed_update
        [⟨[1], ⟨5, 1, 0, 10⟩, ⟨5, 1, 0, 10⟩⟩] [1] 0 20 = .ok ⟨5, 1, 0, 10⟩ :=
  (single_feed_head_decides ⟨[1], ⟨5, 1, 0, 10⟩, ⟨5, 1, 0, 10⟩⟩ [] [1] 0 20).1.mpr
    (by decide)

/-- C10: a blob decoding to an empty feed list makes the single-feed
query succeed with the default all-zero price, for any requested
identifier and window. -/
theorem single_feed_empty_update_returns_default (id : PriceIdentifier)
    (minT maxT : Int) :
    query_parse_single_price_feed_update [] id minT maxT = .ok ⟨0, 0, 0, 0⟩ := rfl

/-- C4: a non-trading legacy attestation record yields a feed whose
current price, confidence and publish time are the record's previous
fields while its EMA price and confidence are the record's live EMA
fields; a trading record yields the live price, confidence and publish
time as the current price, with the same live EMA fields. -/
theorem attestation_status_fields (pa : PriceAttestation) :
    (pa.status ≠ .Trading →
      (create_price_feed_from_price_attestation pa).price =
          ⟨pa.prev_price, pa.prev_conf, pa.expo, pa.prev_publish_time⟩ ∧
        (create_price_feed_from_price_attestation pa).ema_price.price = pa.ema_price ∧
        (create_price_feed_from_price_attestation pa).ema_price.conf = pa.ema_conf)
    ∧ (pa.status = .Trading →
      (create_price_feed_from_price_attestation pa).price =
          ⟨pa.price, pa.conf, pa.expo, pa.publish_time⟩ ∧
        (create_price_feed_from_price_attestation pa).ema_price.price = pa.ema_price ∧
        (create_price_feed_from_price_attestation pa).ema_price.conf = pa.ema_conf) := by
  unfold create_price_feed_from_price_attestation
  cases h : pa.status <;> simp [h]

/-- Witness for C4 at a concrete halted record. -/
theorem attestation_status_fields_witness :
    ((⟨[1], 10, 2, -5, 100, 11, 3, 90, 12, 4, .Halted⟩ : PriceAttestation).status ≠
        .Trading)
    ∧ (create_price_feed_from_price_attestation
        ⟨[1], 10, 2, -5, 100, 11, 3, 90, 12, 4, .Halted⟩).price = ⟨11, 3, -5, 90⟩ :=
  ⟨by decide,
   ((attestation_status_fields ⟨[1], 10, 2, -5, 100, 11, 3, 90, 12, 4, .Halted⟩).1
     (by decide)).1⟩

/-! ### Claim theorems: accumulator update loop -/

/-- C6 counterexample: with a first pair whose proof verifies but whose
message fails to decode, and a second pair whose proof fails
verification, the call fails with the message-decode error, not the
invalid-proof error — so "fails with an invalid-proof error" does not
hold whenever some pair fails verification. (The call still fails and
returns no feeds.) -/
theorem accumulator_error_kind_cex :
    (∃ u ∈ [(⟨[1], []⟩ : MerkleUpdate), ⟨[2], []⟩],
      (fun (_ : MerkleProof) (m : List Nat) => decide (m ≠ [2])) u.proof u.message = false)
    ∧ parse_accumulator_updates (fun _ m => decide (m ≠ [2])) (fun _ => none)
        [⟨[1], []⟩, ⟨[2], []⟩] = .error "Invalid accumulator message"
    ∧ parse_accumulator_updates (fun _ m => decide (m ≠ [2])) (fun _ => none)
        [⟨[1], []⟩, ⟨[2], []⟩] ≠ .error "Invalid merkly proof" := by
  refine ⟨⟨⟨[2], []⟩, by simp, by decide⟩, rfl, ?_⟩
  rw [show parse_accumulator_updates (fun _ m => decide (m ≠ [2])) (fun _ => none)
        [⟨[1], []⟩, ⟨[2], []⟩] = .error "Invalid accumulator message" from rfl]
  simp

/-- C6 amended: if any pair fails Merkle verification the entire call
fails and returns no feeds — with the invalid-proof error whenever every
earlier pair passed verification and decoded to a supported message —
and a successful call implies every pair verified, one feed per pair;
partial acceptance is impossible. -/
theorem parse_accumulator_ok_inv (check : MerkleProof → List Nat → Bool)
    (decodeMessage : List Nat → Option AccMessage) :
    ∀ (us : List MerkleUpdate) (feeds : List PriceFeed),
      parse_accumulator_updates check decodeMessage us = .ok feeds →
      (∀ u ∈ us, check u.proof u.message = true) ∧ feeds.length = us.length := by
  intro us
  induction us with
  | nil =>
    intro feeds hres
    unfold parse_accumulator_updates at hres
    simp only [Except.ok.injEq] at hres
    subst hres
    exact ⟨by intro u hu; exact absurd hu (List.not_mem_nil u), rfl⟩
  | cons v rest ih =>
    intro feeds hres
    unfold parse_accumulator_updates at hres
    by_cases hv : check v.proof v.message = true
    · rw [if_neg (by simp [hv])] at hres
      cases hd : decodeMessage v.message with
      | none => rw [hd] at hres; exact Except.noConfusion hres
      | some msg =>
        rw [hd] at hres
        cases msg with
        | PriceFeedMessage m =>
          cases hrest : parse_accumulator_updates check decodeMessage rest with
          | error e => rw [hrest] at hres; exact Except.noConfusion hres
          | ok feeds2 =>
            rw [hrest] at hres
            simp only [Except.ok.injEq] at hres
            obtain ⟨hall, hlen⟩ := ih feeds2 hrest
            subst hres
            refine ⟨?_, by simp [hlen]⟩
            intro u hu
            rcases List.mem_cons.mp hu with rfl | hu2
            · exact hv
            · exact hall u hu2
        | Other => exact Except.noConfusion hres
    · rw [if_pos (by simpa using hv)] at hres
      exact Except.noConfusion hres

theorem parse_accumulator_atomicity (check : MerkleProof → List Nat → Bool)
    (decodeMessage : List Nat → Option AccMessage) (us : List MerkleUpdate) :
    ((∃ u ∈ us, check u.proof u.message = false) →
      ∃ e, parse_accumulator_updates check decodeMessage us = .error e)
    ∧ (∀ feeds, parse_accumulator_updates check decodeMessage us = .ok feeds →
      (∀ u ∈ us, check u.proof u.message = true) ∧ feeds.length = us.length)
    ∧ (∀ pre u post, us = pre ++ u :: post →
      (∀ v ∈ pre, check v.proof v.message = true ∧
        ∃ m, decodeMessage v.message = some (.PriceFeedMessage m)) →
      check u.proof u.message = false →
      parse_accumulator_updates check decodeMessage us = .error "Invalid merkly proof") := by
  refine ⟨?_, parse_accumulator_ok_inv check decodeMessage us, ?_⟩
  · intro hex
    cases hres : parse_accumulator_updates check decodeMessage us with
    | error e => exact ⟨e, rfl⟩
    | ok feeds =>
      exfalso
      obtain ⟨u, hu, hfail⟩ := hex
      have hall := (parse_accumulator_ok_inv check decodeMessage us feeds hres).1
      exact absurd (hall u hu) (by simp [hfail])
  · intro pre u post hus hpre hfail
    subst hus
    induction pre with
    | nil =>
      unfold parse_accumulator_updates
      rw [List.nil_append]
      simp only [parse_accumulator_updates]
      rw [if_pos (by simp [hfail])]
    | cons v vs ih =>
      have hv := hpre v (by simp)
      obtain ⟨hcheck, m, hdec⟩ := hv
      rw [List.cons_append]
      unfold parse_accumulator_updates
      rw [if_neg (by simp [hcheck]), hdec]
      rw [ih (fun w hw => hpre w (by simp [hw]))]

/-- Witness for the amended C6: one pair with a failing proof makes the
loop fail with the invalid-proof error. -/
theorem parse_accumulator_atomicity_witness :
    parse_accumulator_updates (fun _ m => decide (m ≠ [2])) (fun _ => none)
        [⟨[2], []⟩] = .error "Invalid merkly proof" :=
  (parse_accumulator_atomicity (fun _ m => decide (m ≠ [2])) (fun _ => none)
    [⟨[2], []⟩]).2.2 [] ⟨[2], []⟩ [] rfl (by intro v hv; exact absurd hv (by simp))
    (by decide)

/-! ### Wire-format prefix lemmas: each reader consumes a prefix
determined by the bytes it reads, so appending bytes leaves its result
unchanged apart from the leftover. -/

theorem readByte_append (bs ex : List Nat) (v : Nat) (r : List Nat)
    (h : readByte bs = some (v, r)) : readByte (bs ++ ex) = some (v, r ++ ex) := by
  cases bs with
  | nil => exact Option.noConfusion h
  | cons b rest =>
    simp only [readByte, Option.some.injEq, Prod.mk.injEq] at h
    obtain ⟨rfl, rfl⟩ := h
    rfl

theorem readU16BE_append (bs ex : List Nat) (v : Nat) (r : List Nat)
    (h : readU16BE bs = some (v, r)) : readU16BE (bs ++ ex) = some (v, r ++ ex) := by
  match bs with
  | [] => exact Option.noConfusion h
  | [b1] => exact Option.noConfusion h
  | b1 :: b2 :: rest =>
    simp only [readU16BE, Option.some.injEq, Prod.mk.injEq] at h
    obtain ⟨rfl, rfl⟩ := h
    rfl

theorem readExact_append (n : Nat) (bs ex : List Nat) (v r : List Nat)
    (h : readExact n bs = some (v, r)) :
    readExact n (bs ++ ex) = some (v, r ++ ex) := by
  unfold readExact at h ⊢
  by_cases hle : n ≤ bs.length
  · rw [if_pos hle] at h
    simp only [Option.some.injEq, Prod.mk.injEq] at h
    obtain ⟨rfl, rfl⟩ := h
    rw [if_pos (by simp only [List.length_append]; omega)]
    rw [List.take_append_of_le_length hle, List.drop_append_of_le_length hle]
  · rw [if_neg hle] at h
    exact Option.noConfusion h

theorem readDataSources_append (n : Nat) :
    ∀ (bs ex : List Nat) (ds : List PythDataSource) (r : List Nat),
      readDataSources n bs = some (ds, r) →
      readDataSources n (bs ++ ex) = some (ds, r ++ ex) := by
  induction n with
  | zero =>
    intro bs ex ds r h
    simp only [readDataSources, Option.some.injEq, Prod.mk.injEq] at h
    obtain ⟨rfl, rfl⟩ := h
    rfl
  | succ k ih =>
    intro bs ex ds r h
    unfold readDataSources at h ⊢
    split at h
    next => exact Option.noConfusion h
    next cid bs1 h1 =>
      rw [readU16BE_append bs ex cid bs1 h1]
      simp only []
      split at h
      next => exact Option.noConfusion h
      next em bs2 h2 =>
        rw [readExact_append 32 bs1 ex em bs2 h2]
        simp only []
        split at h
        next => exact Option.noConfusion h
        next ds2 bs3 h3 =>
          rw [ih bs2 ex ds2 bs3 h3]
          simp only [Option.some.injEq, Prod.mk.injEq] at h ⊢
          obtain ⟨rfl, rfl⟩ := h
          exact ⟨rfl, rfl⟩

theorem readAction_append (t : Nat) (bs ex : List Nat)
    (a : Except DeserError GovernanceAction) (r : List Nat)
    (h : readAction t bs = some (a, r)) :
    readAction t (bs ++ ex) = some (a, r ++ ex) := by
  unfold readAction at h ⊢
  by_cases ht : t = 2
  · rw [if_pos ht] at h
    rw [if_pos ht]
    split at h
    next => exact Option.noConfusion h
    next count bs1 h1 =>
      rw [readByte_append bs ex count bs1 h1]
      simp only []
      split at h
      next => exact Option.noConfusion h
      next ds bs2 h2 =>
        rw [readDataSources_append count bs1 ex ds bs2 h2]
        simp only [Option.some.injEq, Prod.mk.injEq] at h ⊢
        obtain ⟨rfl, rfl⟩ := h
        exact ⟨rfl, rfl⟩
  · rw [if_neg ht] at h
    rw [if_neg ht]
    simp only [Option.some.injEq, Prod.mk.injEq] at h ⊢
    obtain ⟨rfl, rfl⟩ := h
    exact ⟨rfl, rfl⟩

/-- C8: a byte sequence that deserializes successfully becomes invalid
when any non-empty suffix is appended: the decoder consumes exactly the
recognized payload and the end-of-buffer check then rejects the extra
bytes with the trailing-bytes error. -/
theorem deserialize_rejects_trailing_bytes (bs ex : List Nat)
    (gi : GovernanceInstruction)
    (h : GovernanceInstruction.deserialize bs = .ok gi) (hex : ex ≠ []) :
    GovernanceInstruction.deserialize (bs ++ ex) = .error .trailingBytes := by
  unfold GovernanceInstruction.deserialize at h ⊢
  split at h
  next => exact Except.noConfusion h
  next magic bs1 h4 =>
    rw [readExact_append 4 bs ex magic bs1 h4]
    simp only []
    split at h
    next => exact Except.noConfusion h
    next hm =>
      rw [if_neg hm]
      split at h
      next => exact Except.noConfusion h
      next moduleNum bs2 hb1 =>
        rw [readByte_append bs1 ex moduleNum bs2 hb1]
        simp only []
        split at h
        next => exact Except.noConfusion h
        next m hmod =>
          split at h
          next => exact Except.noConfusion h
          next actionType bs3 hb2 =>
            rw [readByte_append bs2 ex actionType bs3 hb2]
            simp only []
            split at h
            next => exact Except.noConfusion h
            next tc bs4 hu =>
              rw [readU16BE_append bs3 ex tc bs4 hu]
              simp only []
              split at h
              next => exact Except.noConfusion h
              next action rest ha =>
                rw [readAction_append actionType bs4 ex action rest ha]
                simp only []
                split at h
                next => exact Except.noConfusion h
                next hr =>
                  push_neg at hr
                  subst hr
                  simp [hex]

/-- Witness for C8: the shortest valid instruction plus one trailing
byte is rejected. -/
theorem deserialize_rejects_trailing_bytes_witness :
    GovernanceInstruction.deserialize ([80, 84, 71, 77, 1, 2, 0, 0, 0] ++ [0]) =
      .error .trailingBytes :=
  deserialize_rejects_trailing_bytes [80, 84, 71, 77, 1, 2, 0, 0, 0] [0]
    ⟨.Target, .SetDataSources [], 0⟩ rfl (by decide)

/-! ### Governance codec round-trip -/

theorem from_u8_to_u8 (m : GovernanceModule) :
    GovernanceModule.from_u8 m.to_u8 = some m := by
  cases m <;> rfl

theorem readU16BE_u16be (x : Nat) (r : List Nat) (hx : x < 65536) :
    readU16BE (u16be x ++ r) = some (x, r) := by
  have h1 : x / 256 < 256 := by omega
  have h2 : x / 256 % 256 * 256 + x % 256 = x := by
    rw [Nat.mod_eq_of_lt h1]
    omega
  simp only [u16be, List.cons_append, List.nil_append, readU16BE, h2]

theorem readExact_of_length (n : Nat) (l r : List Nat) (h : l.length = n) :
    readExact n (l ++ r) = some (l, r) := by
  unfold readExact
  rw [if_pos (by rw [List.length_append, ← h]; exact Nat.le_add_right _ _)]
  rw [List.take_left' h, List.drop_left' h]

theorem serializeDataSources_isOk_iff (ds : List PythDataSource) :
    (∃ body, serializeDataSources ds = .ok body) ↔
      ∀ d ∈ ds, d.emitter.length = 32 := by
  induction ds with
  | nil => simp [serializeDataSources]
  | cons d rest ih =>
    simp only [serializeDataSources]
    by_cases hd : d.emitter.length = 32
    · rw [if_neg (by simp [hd])]
      cases hrest : serializeDataSources rest with
      | error e =>
        constructor
        · rintro ⟨body, hb⟩
          exact Except.noConfusion hb
        · intro hall
          exfalso
          obtain ⟨body, hb⟩ := ih.mpr fun x hx => hall x (List.mem_cons_of_mem d hx)
          rw [hrest] at hb
          exact Except.noConfusion hb
      | ok tail =>
        constructor
        · intro _ x hx
          rcases List.mem_cons.mp hx with rfl | hx2
          · exact hd
          · exact ih.mp ⟨tail, hrest⟩ x hx2
        · intro _
          exact ⟨_, rfl⟩
    · rw [if_pos hd]
      constructor
      · rintro ⟨body, hb⟩
        exact Except.noConfusion hb
      · intro hall
        exact absurd (hall d (List.mem_cons_self d rest)) hd

theorem readDataSources_serialized :
    ∀ (ds : List PythDataSource) (body r : List Nat),
      serializeDataSources ds = .ok body →
      (∀ d ∈ ds, d.chain_id < 65536) →
      readDataSources ds.length (body ++ r) = some (ds, r) := by
  intro ds
  induction ds with
  | nil =>
    intro body r hser _
    simp only [serializeDataSources, Except.ok.injEq] at hser
    subst hser
    simp [readDataSources]
  | cons d rest ih =>
    intro body r hser hcid
    simp only [serializeDataSources] at hser
    by_cases hd : d.emitter.length ≠ 32
    · rw [if_pos hd] at hser
      exact Except.noConfusion hser
    · rw [if_neg hd] at hser
      push_neg at hd
      split at hser
      next => exact Except.noConfusion hser
      next tail htail =>
        simp only [Except.ok.injEq] at hser
        subst hser
        simp only [List.length_cons]
        simp only [readDataSources]
        rw [List.append_assoc, List.append_assoc]
        rw [readU16BE_u16be d.chain_id _ (hcid d (List.mem_cons_self d rest))]
        simp only []
        rw [readExact_of_length 32 d.emitter _ hd]
        simp only []
        rw [ih tail r htail fun x hx => hcid x (List.mem_cons_of_mem d hx)]

theorem deserialize_of_serialized (m : GovernanceModule) (ds : List PythDataSource)
    (tc : Nat) (body : List Nat) (htc : tc < 65536)
    (hcid : ∀ d ∈ ds, d.chain_id < 65536)
    (hbody : serializeDataSources ds = .ok body) :
    GovernanceInstruction.deserialize
      (pythGovernanceMagic ++ [GovernanceModule.to_u8 m] ++ [2] ++ u16be tc ++
        [ds.length] ++ body) = .ok ⟨m, .SetDataSources ds, tc⟩ := by
  have hds := readDataSources_serialized ds body [] hbody hcid
  rw [List.append_nil] at hds
  unfold GovernanceInstruction.deserialize
  simp only [List.append_assoc]
  rw [readExact_of_length 4 pythGovernanceMagic _ rfl]
  simp only []
  rw [if_neg (by simp)]
  simp only [List.singleton_append, readByte, from_u8_to_u8]
  rw [readU16BE_u16be tc _ htc]
  simp only [readAction, if_pos, readByte]
  rw [hds]
  simp

/-- Unfolding of `serialize` at the (single) action constructor. -/
theorem serialize_setDataSources (m : GovernanceModule) (ds : List PythDataSource)
    (tc : Nat) :
    GovernanceInstruction.serialize ⟨m, .SetDataSources ds, tc⟩ =
      (if 255 < ds.length then .error .tooManySources
      else
        match serializeDataSources ds with
        | .error e => .error e
        | .ok body => .ok (pythGovernanceMagic ++ [GovernanceModule.to_u8 m] ++ [2] ++
            u16be tc ++ [ds.length] ++ body)) := rfl

/-- C5 counterexample: an instruction with 256 data sources, every one
of them with a 32-byte emitter, fails to serialize (the count is written
as a single byte, governance.rs line 123), refuting "encoding fails iff
some emitter's length differs from 32". -/
theorem serialize_fails_despite_valid_emitters_cex :
    (∀ d ∈ List.replicate 256 (⟨List.replicate 32 0, 0⟩ : PythDataSource),
      d.emitter.length = 32)
    ∧ GovernanceInstruction.serialize
        ⟨.Target, .SetDataSources (List.replicate 256 ⟨List.replicate 32 0, 0⟩), 0⟩ =
        .error .tooManySources := by
  constructor
  · intro d hd
    rw [List.eq_of_mem_replicate hd]
    rfl
  · rw [serialize_setDataSources]
    rw [if_pos (by rw [List.length_replicate]; omega)]

/-- C5 amended: with u16 chain ids, serialization succeeds iff there are
at most 255 data sources and every emitter is exactly 32 bytes, and
whenever serialization succeeds, deserializing its output returns the
original instruction. -/
theorem governance_serialize_roundtrip (m : GovernanceModule)
    (ds : List PythDataSource) (tc : Nat)
    (htc : tc < 65536) (hcid : ∀ d ∈ ds, d.chain_id < 65536) :
    ((∃ bs, GovernanceInstruction.serialize ⟨m, .SetDataSources ds, tc⟩ = .ok bs) ↔
      (ds.length ≤ 255 ∧ ∀ d ∈ ds, d.emitter.length = 32))
    ∧ (∀ bs, GovernanceInstruction.serialize ⟨m, .SetDataSources ds, tc⟩ = .ok bs →
      GovernanceInstruction.deserialize bs = .ok ⟨m, .SetDataSources ds, tc⟩) := by
  constructor
  · constructor
    · rintro ⟨bs, hbs⟩
      rw [serialize_setDataSources] at hbs
      split at hbs
      next h255 => exact Except.noConfusion hbs
      next h255 =>
        split at hbs
        next => exact Except.noConfusion hbs
        next body hbody =>
          exact ⟨Nat.le_of_not_lt h255, (serializeDataSources_isOk_iff ds).mp ⟨body, hbody⟩⟩
    · rintro ⟨h255, hall⟩
      obtain ⟨body, hbody⟩ := (serializeDataSources_isOk_iff ds).mpr hall
      exact ⟨pythGovernanceMagic ++ [GovernanceModule.to_u8 m] ++ [2] ++ u16be tc ++
        [ds.length] ++ body, by rw [serialize_setDataSources, if_neg (by omega), hbody]⟩
  · intro bs hbs
    rw [serialize_setDataSources] at hbs
    split at hbs
    next => exact Except.noConfusion hbs
    next h255 =>
      split at hbs
      next => exact Except.noConfusion hbs
      next body hbody =>
        simp only [Except.ok.injEq] at hbs
        subst hbs
        exact deserialize_of_serialized m ds tc body htc hcid hbody

/-- Witness for the amended C5: round trip of the instruction of the
specification example (one source, chain id 3, 32-byte emitter). -/
theorem governance_serialize_roundtrip_witness :
    GovernanceInstruction.deserialize
        ([80, 84, 71, 77, 1, 2, 0, 0, 1, 0, 3] ++ List.replicate 32 9) =
      .ok ⟨.Target, .SetDataSources [⟨List.replicate 32 9, 3⟩], 0⟩ :=
  (governance_serialize_roundtrip .Target [⟨List.replicate 32 9, 3⟩] 0 (by decide)
    (by decide)).2 ([80, 84, 71, 77, 1, 2, 0, 0, 1, 0, 3] ++ List.replicate 32 9)
    (by rfl)

/-! ### Multi-feed query lemmas -/

/-- The condition of contract.rs lines 170-176 as a boolean predicate on
one feed: in the inclusive window and matching the requested id. -/
def feedMatches (id : PriceIdentifier) (minT maxT : Int) (f : PriceFeed) : Bool :=
  decide (¬(f.price.publish_time < minT ∨ maxT < f.price.publish_time)) &&
    decide (id = f.id)

theorem feedMatches_eq_true_iff (id : PriceIdentifier) (minT maxT : Int)
    (f : PriceFeed) :
    feedMatches id minT maxT f = true ↔
      (f.id = id ∧ minT ≤ f.price.publish_time ∧ f.price.publish_time ≤ maxT) := by
  unfold feedMatches
  rw [Bool.and_eq_true, decide_eq_true_iff, decide_eq_true_iff]
  constructor
  · rintro ⟨hw, hid⟩
    rw [not_or, not_lt, not_lt] at hw
    exact ⟨hid.symm, hw.1, hw.2⟩
  · rintro ⟨hid, h1, h2⟩
    refine ⟨?_, hid.symm⟩
    rw [not_or, not_lt, not_lt]
    exact ⟨h1, h2⟩

theorem findFeed_eq_find? (id : PriceIdentifier) (minT maxT : Int)
    (l : List PriceFeed) :
    findFeed id minT maxT l = l.find? (feedMatches id minT maxT) := by
  induction l with
  | nil => rfl
  | cons f rest ih =>
    simp only [findFeed, List.find?]
    by_cases hw : f.price.publish_time < minT ∨ maxT < f.price.publish_time
    · rw [if_pos hw, ih]
      have hb : feedMatches id minT maxT f = false := by simp [feedMatches, hw]
      rw [hb]
    · rw [if_neg hw]
      by_cases hid : id = f.id
      · rw [if_pos hid]
        have hb : feedMatches id minT maxT f = true := by simp [feedMatches, hw, hid]
        rw [hb]
      · rw [if_neg hid, ih]
        have hb : feedMatches id minT maxT f = false := by simp [feedMatches, hid]
        rw [hb]

theorem findFeed_append (id : PriceIdentifier) (minT maxT : Int)
    (l1 l2 : List PriceFeed) :
    findFeed id minT maxT (l1 ++ l2) =
      (findFeed id minT maxT l1).or (findFeed id minT maxT l2) := by
  simp [findFeed_eq_find?, List.find?_append]

theorem foldl_updateResults_map (minT maxT : Int) (ids : List PriceIdentifier) :
    ∀ (updates : List (List PriceFeed)) (acc : List PriceFeed),
      updates.foldl (fun rs feeds => updateResults minT maxT feeds rs)
        (ids.map fun id => (id, findFeed id minT maxT acc)) =
      ids.map fun id => (id, findFeed id minT maxT (acc ++ updates.flatten)) := by
  intro updates
  induction updates with
  | nil => intro acc; simp
  | cons feeds rest ih =>
    intro acc
    rw [List.foldl_cons]
    have hstep : updateResults minT maxT feeds
        (ids.map fun id => (id, findFeed id minT maxT acc)) =
        ids.map fun id => (id, findFeed id minT maxT (acc ++ feeds)) := by
      unfold updateResults
      rw [List.map_map]
      apply List.map_congr_left
      intro id _
      simp only [Function.comp_apply]
      cases hf : findFeed id minT maxT acc with
      | some f =>
        have hjoin : findFeed id minT maxT (acc ++ feeds) = some f := by
          rw [findFeed_append, hf]
          rfl
        rw [hjoin]
      | none =>
        have hjoin : findFeed id minT maxT (acc ++ feeds) =
            findFeed id minT maxT feeds := by
          rw [findFeed_append, hf]
          rfl
        rw [hjoin]
    rw [hstep, ih (acc ++ feeds)]
    simp [List.append_assoc]

theorem length_filter_eq_length_iff {α : Type} (p : α → Bool) :
    ∀ l : List α, ((l.filter p).length = l.length ↔ ∀ a ∈ l, p a = true) := by
  intro l
  induction l with
  | nil => simp
  | cons a l ih =>
    by_cases ha : p a = true
    · rw [List.filter_cons_of_pos ha]
      simp only [List.length_cons]
      constructor
      · intro h x hx
        rcases List.mem_cons.mp hx with rfl | hx2
        · exact ha
        · exact ih.mp (by omega) x hx2
      · intro hall
        have h2 := ih.mpr fun x hx => hall x (List.mem_cons_of_mem a hx)
        omega
    · rw [List.filter_cons_of_neg ha]
      have hle := List.length_filter_le p l
      constructor
      · intro h
        exfalso
        simp only [List.length_cons] at h
        omega
      · intro hall
        exact absurd (hall a (List.mem_cons_self a l)) ha

/-- Closed form of the multi-feed query: every result slot ends up
holding the first in-window match for its identifier across the
concatenation of all blobs, and the completeness check compares the
number of satisfied slots with the number of requests. -/
theorem query_parse_price_feed_updates_eq (updates : List (List PriceFeed))
    (price_feeds : List PriceIdentifier) (minT maxT : Int) :
    query_parse_price_feed_updates updates price_feeds minT maxT =
      if (price_feeds.filter fun id =>
            (findFeed id minT maxT updates.flatten).isSome).length ≠ price_feeds.length
      then .error "Invalid update data"
      else .ok (price_feeds.map fun id =>
        (findFeed id minT maxT updates.flatten).getD ⟨[], Price.default, Price.default⟩) := by
  simp only [query_parse_price_feed_updates]
  rw [show (price_feeds.map fun id => ((id, none) : PriceIdentifier × Option PriceFeed)) =
      price_feeds.map fun id => (id, findFeed id minT maxT []) from rfl]
  rw [foldl_updateResults_map minT maxT price_feeds updates []]
  rw [List.nil_append]
  rw [List.filter_map, List.length_map, List.map_map]
  rfl

/-- C2: the multi-feed query succeeds iff each requested identifier has
some feed, in encounter order across the supplied blobs, matching it
inside the inclusive window; if any identifier stays unsatisfied the
whole call fails with the incomplete-result error; a successful call
returns exactly one feed per request, in request order, each the first
in-window match for its identifier (`findFeed` is exactly
first-match-in-encounter-order, final conjunct). -/
theorem query_parse_price_feed_updates_spec (updates : List (List PriceFeed))
    (price_feeds : List PriceIdentifier) (minT maxT : Int) :
    ((query_parse_price_feed_updates updates price_feeds minT maxT).isOk = true ↔
      ∀ id ∈ price_feeds, (findFeed id minT maxT updates.flatten).isSome = true)
    ∧ ((∃ id ∈ price_feeds, findFeed id minT maxT updates.flatten = none) →
      query_parse_price_feed_updates updates price_feeds minT maxT =
        .error "Invalid update data")
    ∧ (∀ out, query_parse_price_feed_updates updates price_feeds minT maxT = .ok out →
      out.length = price_feeds.length ∧
      ∀ (i : Nat) (id : PriceIdentifier), price_feeds[i]? = some id →
        out[i]? = findFeed id minT maxT updates.flatten)
    ∧ (∀ (id : PriceIdentifier) (l : List PriceFeed) (f : PriceFeed),
      findFeed id minT maxT l = some f ↔
        (f.id = id ∧ minT ≤ f.price.publish_time ∧ f.price.publish_time ≤ maxT) ∧
        ∃ pre post, l = pre ++ f :: post ∧
          ∀ g ∈ pre, ¬(g.id = id ∧ minT ≤ g.price.publish_time ∧
            g.price.publish_time ≤ maxT)) := by
  refine ⟨?_, ?_, ?_, ?_⟩
  · rw [query_parse_price_feed_updates_eq]
    by_cases hall : ∀ id ∈ price_feeds,
        (findFeed id minT maxT updates.flatten).isSome = true
    · rw [if_neg (by simp [(length_filter_eq_length_iff _ _).mpr hall])]
      exact ⟨fun _ => hall, fun _ => rfl⟩
    · rw [if_pos (by
        intro hlen
        exact hall ((length_filter_eq_length_iff _ _).mp hlen))]
      exact ⟨fun hfalse => Bool.noConfusion hfalse, fun h => absurd h hall⟩
  · rintro ⟨id, hid, hnone⟩
    rw [query_parse_price_feed_updates_eq]
    rw [if_pos (by
      intro hlen
      have := (length_filter_eq_length_iff _ _).mp hlen id hid
      rw [hnone] at this
      exact Bool.noConfusion this)]
  · intro out hout
    rw [query_parse_price_feed_updates_eq] at hout
    by_cases hlen : (price_feeds.filter fun id =>
        (findFeed id minT maxT updates.flatten).isSome).length = price_feeds.length
    · rw [if_neg (not_not_intro hlen)] at hout
      simp only [Except.ok.injEq] at hout
      subst hout
      have hall := (length_filter_eq_length_iff _ _).mp hlen
      refine ⟨by simp, ?_⟩
      intro i id hi
      rw [List.getElem?_map, hi]
      have hmem : id ∈ price_feeds := by
        obtain ⟨hb, he⟩ := List.getElem?_eq_some_iff.mp hi
        exact he ▸ List.getElem_mem hb
      cases hf : findFeed id minT maxT updates.flatten with
      | none =>
        have := hall id hmem
        rw [hf] at this
        exact Bool.noConfusion this
      | some v => simp [hf]
    · rw [if_pos hlen] at hout
      exact Except.noConfusion hout
  · intro id l f
    rw [findFeed_eq_find?, List.find?_eq_some]
    constructor
    · rintro ⟨hpf, pre, post, rfl, hpre⟩
      refine ⟨(feedMatches_eq_true_iff id minT maxT f).mp hpf, pre, post, rfl, ?_⟩
      intro g hg hgood
      have := hpre g hg
      rw [(feedMatches_eq_true_iff id minT maxT g).mpr hgood] at this
      exact Bool.noConfusion this
    · rintro ⟨hpf, pre, post, rfl, hpre⟩
      refine ⟨(feedMatches_eq_true_iff id minT maxT f).mpr hpf, pre, post, rfl, ?_⟩
      intro g hg
      cases hfm : feedMatches id minT maxT g with
      | false => rfl
      | true =>
        exact absurd ((feedMatches_eq_true_iff id minT maxT g).mp hfm) (hpre g hg)

/-- Witness for C2: two blobs, two requested identifiers, both
satisfied. -/
theorem query_parse_price_feed_updates_spec_witness :
    (query_parse_price_feed_updates
        [[⟨[1], ⟨5, 1, 0, 10⟩, ⟨5, 1, 0, 10⟩⟩], [⟨[2], ⟨6, 1, 0, 11⟩, ⟨6, 1, 0, 11⟩⟩]]
        [[1], [2]] 0 20).isOk = true :=
  (query_parse_price_feed_updates_spec
    [[⟨[1], ⟨5, 1, 0, 10⟩, ⟨5, 1, 0, 10⟩⟩], [⟨[2], ⟨6, 1, 0, 11⟩, ⟨6, 1, 0, 11⟩⟩]]
    [[1], [2]] 0 20).1.mpr (by decide)

end PythCosmwasm
